import Mathlib

/-! Incentive proposals: stateless validation.

A shallow embedding of `x/incentives/types/proposal.go`: the register and cancel
incentive proposals, their `ProposalRoute`, `ProposalType` and `ValidateBasic`
methods, and the helpers `validateAllocations`, `validateAmount` and
`validateEpochs`.

Go's `error` results are values of `Except Error Unit`: `.ok ()` is a `nil` error.
The three validation collaborators (`ethermint.ValidateAddress`,
`sdk.ValidateDenom`, `govtypes.ValidateAbstract`) and the constant `RouterKey`
live outside the file and are parameters of the embedding.
-/

namespace Incentives

/-! ## Data model -/

/-- The number of decimal places of `sdk.Dec`. -/
def Precision : Nat := 18

/-- The fixed-point decimal `sdk.Dec`: the integer `i` stands for `i / 10^Precision`.
The embedding covers the decimals that carry an integer. The zero value `Dec{}` wraps
a nil integer, on which the comparisons of `validateAmount` panic; it stands for no
fraction and has no counterpart here, so a statement about an amount the code reads
holds of the program where that amount is a fraction. -/
structure Dec where
  i : Int
  deriving DecidableEq, Repr

/-- The decimal one, `sdk.OneDec()`. -/
def OneDec : Dec := ⟨10 ^ Precision⟩

/-- The decimal zero, `sdk.ZeroDec()`. -/
def ZeroDec : Dec := ⟨0⟩

/-- Strictly greater, `d.GT(d2)`: a comparison of the underlying integers. -/
def Dec.GT (d d2 : Dec) : Bool := decide (d.i > d2.i)

/-- Less than or equal, `d.LTE(d2)`: a comparison of the underlying integers. -/
def Dec.LTE (d d2 : Dec) : Bool := decide (d.i ≤ d2.i)

/-- The rational number a decimal stands for. -/
def Dec.toRat (d : Dec) : ℚ := (d.i : ℚ) / (10 : ℚ) ^ Precision

/-- The fraction of a decimal lies in `(0, 1]`. -/
def Dec.inUnit (a : Dec) : Prop := 0 < a.toRat ∧ a.toRat ≤ 1

/-- A coin with a decimal amount, `sdk.DecCoin`. -/
structure DecCoin where
  Denom : String
  Amount : Dec
  deriving DecidableEq, Repr

/-- The argument handed to a `%s` verb of `fmt.Errorf`. -/
inductive FmtArg where
  | dec (amount : Dec)
  | uint32 (n : Nat)
  deriving DecidableEq, Repr

/-- A Go `error` value: either built in this file by `fmt.Errorf` from a format
string and its argument, or produced by one of the collaborators. -/
inductive Error where
  | Errorf (format : String) (arg : FmtArg)
  | external (msg : String)
  deriving DecidableEq, Repr

/-- Equality of results is decidable, so that results can be compared by evaluation. -/
instance (r s : Except Error Unit) : Decidable (r = s) :=
  match r, s with
  | .ok (), .ok () => isTrue rfl
  | .ok (), .error _ => isFalse (fun h => by cases h)
  | .error _, .ok () => isFalse (fun h => by cases h)
  | .error e, .error f =>
    if h : e = f then isTrue (by rw [h]) else isFalse (fun h2 => h (by cases h2; rfl))

/-- The proposal to register an incentive. `Epochs` is a `uint32`. -/
structure RegisterIncentiveProposal where
  Title : String
  Description : String
  Contract : String
  Allocations : List DecCoin
  Epochs : Nat
  deriving DecidableEq, Repr

/-- The proposal to cancel an incentive. -/
structure CancelIncentiveProposal where
  Title : String
  Description : String
  Contract : String
  deriving DecidableEq, Repr

/-- The validation collaborators: `ethermint.ValidateAddress` on an address string,
`sdk.ValidateDenom` on a denomination, and `govtypes.ValidateAbstract`, which reads
a content through its title and its description. -/
structure Validators where
  ValidateAddress : String → Except Error Unit
  ValidateDenom : String → Except Error Unit
  ValidateAbstract : String → String → Except Error Unit

/-! ## Constants -/

def ProposalTypeRegisterIncentive : String := "RegisterIncentive"

def ProposalTypeCancelIncentive : String := "CancelIncentive"

/-! ## Register proposal -/

/-- The constructor `NewRegisterIncentiveProposal` returns new instance of RegisterIncentiveProposal. -/
def NewRegisterIncentiveProposal (title desciption contract : String)
    (allocations : List DecCoin) (epochs : Nat) : RegisterIncentiveProposal :=
  { Title := title, Description := desciption, Contract := contract,
    Allocations := allocations, Epochs := epochs }

/-- The method `ProposalRoute` returns router key for this proposal. The constant
`RouterKey` is declared outside the file and is a parameter here. -/
def RegisterIncentiveProposal.ProposalRoute (RouterKey : String)
    (_rip : RegisterIncentiveProposal) : String := RouterKey

/-- The method `ProposalType` returns proposal type for this proposal. -/
def RegisterIncentiveProposal.ProposalType (_rip : RegisterIncentiveProposal) : String :=
  ProposalTypeRegisterIncentive

/-- The amount check: an error when `amount > 1` or `amount ≤ 0`. -/
def validateAmount (amount : Dec) : Except Error Unit :=
  if amount.GT OneDec || amount.LTE ZeroDec then
    .error (.Errorf "invalid amount for allocation: %s" (.dec amount))
  else
    .ok ()

/-- The loop of `validateAllocations`: each allocation in order has its denom
checked, then its amount, and the first error is returned. -/
def validateAllocations (V : Validators) : List DecCoin → Except Error Unit
  | [] => .ok ()
  | al :: rest =>
    match V.ValidateDenom al.Denom with
    | .error err => .error err
    | .ok _ =>
      match validateAmount al.Amount with
      | .error err => .error err
      | .ok _ => validateAllocations V rest

/-- The epochs check: an error when `epochs <= 0`. -/
def validateEpochs (epochs : Nat) : Except Error Unit :=
  if epochs ≤ 0 then
    .error (.Errorf "invalid epochs. %s epochs cannot be 0 or negative" (.uint32 epochs))
  else
    .ok ()

/-- The method `ValidateBasic` performs a stateless check of the proposal fields. -/
def RegisterIncentiveProposal.ValidateBasic (V : Validators)
    (rip : RegisterIncentiveProposal) : Except Error Unit :=
  match V.ValidateAddress rip.Contract with
  | .error err => .error err
  | .ok _ =>
    match validateAllocations V rip.Allocations with
    | .error err => .error err
    | .ok _ =>
      match validateEpochs rip.Epochs with
      | .error err => .error err
      | .ok _ => V.ValidateAbstract rip.Title rip.Description

/-! ## Cancel proposal -/

/-- The constructor `NewCancelIncentiveProposal` returns new instance of
RegisterIncentiveProposal: the allocations and the epochs are left at their zero
values, no allocation and 0. -/
def NewCancelIncentiveProposal (title desciption contract : String) :
    RegisterIncentiveProposal :=
  { Title := title, Description := desciption, Contract := contract,
    Allocations := [], Epochs := 0 }

/-- The method `ProposalRoute` returns router key for this proposal. The constant
`RouterKey` is declared outside the file and is a parameter here. -/
def CancelIncentiveProposal.ProposalRoute (RouterKey : String)
    (_rip : CancelIncentiveProposal) : String := RouterKey

/-- The method `ProposalType` returns proposal type for this proposal. -/
def CancelIncentiveProposal.ProposalType (_rip : CancelIncentiveProposal) : String :=
  ProposalTypeRegisterIncentive

/-- The method `ValidateBasic` performs a stateless check of the proposal fields. -/
def CancelIncentiveProposal.ValidateBasic (V : Validators)
    (rip : CancelIncentiveProposal) : Except Error Unit :=
  match V.ValidateAddress rip.Contract with
  | .error err => .error err
  | .ok _ => V.ValidateAbstract rip.Title rip.Description

/-! ## A concrete set of collaborators

Used to evaluate the embedding on explicit inputs. They follow the checks of the
libraries: an address is forty hexadecimal digits after an optional `0x`; a denom
is a letter followed by 2 to 127 letters, digits or slashes; a title is neither
blank nor longer than 140 bytes and a description neither empty nor longer than
5000 bytes. -/

def isHexDigit (c : Char) : Bool :=
  ('0' ≤ c && c ≤ '9') || ('a' ≤ c && c ≤ 'f') || ('A' ≤ c && c ≤ 'F')

def isLetter (c : Char) : Bool :=
  ('a' ≤ c && c ≤ 'z') || ('A' ≤ c && c ≤ 'Z')

def isDenomChar (c : Char) : Bool :=
  isLetter c || ('0' ≤ c && c ≤ '9') || c == '/'

def stripHexPrefix : List Char → List Char
  | '0' :: 'x' :: rest => rest
  | '0' :: 'X' :: rest => rest
  | cs => cs

def sampleValidateAddress (address : String) : Except Error Unit :=
  let s := stripHexPrefix address.data
  if s.length == 40 && s.all isHexDigit then .ok ()
  else .error (.external "invalid address")

def sampleValidateDenom (denom : String) : Except Error Unit :=
  match denom.data with
  | [] => .error (.external "invalid denom")
  | c :: rest =>
    if isLetter c && rest.all isDenomChar && 2 ≤ rest.length && rest.length ≤ 127 then .ok ()
    else .error (.external "invalid denom")

def sampleValidateAbstract (title description : String) : Except Error Unit :=
  if title.data.all (fun c => c == ' ') then
    .error (.external "proposal title cannot be blank")
  else if title.data.length > 140 then
    .error (.external "proposal title is longer than max length")
  else if description.data.length == 0 then
    .error (.external "proposal description cannot be blank")
  else if description.data.length > 5000 then
    .error (.external "proposal description is longer than max length")
  else .ok ()

def sampleValidators : Validators :=
  { ValidateAddress := sampleValidateAddress
    ValidateDenom := sampleValidateDenom
    ValidateAbstract := sampleValidateAbstract }

def sampleContract : String := "0x1234567890abcdef1234567890ABCDEF12345678"

/-- The allocations `uatom 0.5, uosmo 0.3`. -/
def sampleAllocations : List DecCoin :=
  [⟨"uatom", ⟨5 * 10 ^ 17⟩⟩, ⟨"uosmo", ⟨3 * 10 ^ 17⟩⟩]

def sampleRegister : RegisterIncentiveProposal :=
  NewRegisterIncentiveProposal "title" "description" sampleContract sampleAllocations 10

/-- The allocation `uatom 1.5`. -/
def overAllocations : List DecCoin := [⟨"uatom", ⟨15 * 10 ^ 17⟩⟩]

/-- A register proposal that is valid but for its blank title. -/
def blankTitleRegister : RegisterIncentiveProposal :=
  NewRegisterIncentiveProposal "" "description" sampleContract sampleAllocations 10

/-- A register proposal that is valid but for the empty denom of its allocation `0.5`. -/
def emptyDenomRegister : RegisterIncentiveProposal :=
  NewRegisterIncentiveProposal "title" "description" sampleContract [⟨"", ⟨5 * 10 ^ 17⟩⟩] 10

/-- A register proposal with the malformed contract address `xyz`, the allocation
`uatom 1.5` and 5 epochs. -/
def badAddressOverRegister : RegisterIncentiveProposal :=
  NewRegisterIncentiveProposal "title" "description" "xyz" overAllocations 5

/-- A register proposal with the malformed contract address `xyz`, valid allocations
and no epochs. -/
def badAddressZeroEpochsRegister : RegisterIncentiveProposal :=
  NewRegisterIncentiveProposal "title" "description" "xyz" sampleAllocations 0

/-- A register proposal with a valid contract address, the allocation `uatom 1.5`
and no epochs. -/
def overZeroEpochsRegister : RegisterIncentiveProposal :=
  NewRegisterIncentiveProposal "title" "description" sampleContract overAllocations 0

/-- A register proposal with a valid contract address, valid allocations and no epochs. -/
def zeroEpochsRegister : RegisterIncentiveProposal :=
  NewRegisterIncentiveProposal "title" "description" sampleContract sampleAllocations 0

/-- A register proposal whose only defect is the malformed contract address `xyz`. -/
def badAddressRegister : RegisterIncentiveProposal :=
  NewRegisterIncentiveProposal "title" "description" "xyz" sampleAllocations 10

def sampleCancel : CancelIncentiveProposal :=
  { Title := "title", Description := "description", Contract := sampleContract }

def badAddressCancel : CancelIncentiveProposal :=
  { Title := "title", Description := "description", Contract := "xyz" }

/-- The allocations `uatom 0.6, uatom 0.7`: one denom twice, fractions that sum to
`1.3`. -/
def repeatedAllocations : List DecCoin :=
  [⟨"uatom", ⟨6 * 10 ^ 17⟩⟩, ⟨"uatom", ⟨7 * 10 ^ 17⟩⟩]

/-- The allocations `uatom 0.5`, then `1.5` of empty denom, then `uosmo 2`. -/
def mixedAllocations : List DecCoin :=
  [⟨"uatom", ⟨5 * 10 ^ 17⟩⟩, ⟨"", ⟨15 * 10 ^ 17⟩⟩, ⟨"uosmo", ⟨2 * 10 ^ 18⟩⟩]

/-- The allocations `uatom 0.5`, then `uosmo 1.5`, then `2` of empty denom. -/
def lateOverAllocations : List DecCoin :=
  [⟨"uatom", ⟨5 * 10 ^ 17⟩⟩, ⟨"uosmo", ⟨15 * 10 ^ 17⟩⟩, ⟨"", ⟨2 * 10 ^ 18⟩⟩]

/-- A register proposal with no allocations, a valid contract address and 10 epochs. -/
def emptyAllocationsRegister : RegisterIncentiveProposal :=
  NewRegisterIncentiveProposal "title" "description" sampleContract [] 10

theorem pow_precision_pos : (0 : ℚ) < (10 : ℚ) ^ Precision := by
  unfold Precision; positivity

/-- A decimal is positive exactly when its integer is. -/
theorem toRat_pos_iff (a : Dec) : 0 < a.toRat ↔ 0 < a.i := by
  unfold Dec.toRat
  rw [div_pos_iff_of_pos_right pow_precision_pos]
  exact Int.cast_pos

/-- A decimal is at most one exactly when its integer is at most `10^Precision`. -/
theorem toRat_le_one_iff (a : Dec) : a.toRat ≤ 1 ↔ a.i ≤ 10 ^ Precision := by
  unfold Dec.toRat
  rw [div_le_one pow_precision_pos]
  have h : ((10 : ℚ) ^ Precision) = (((10 : Int) ^ Precision : Int) : ℚ) := by push_cast; rfl
  rw [h]
  exact Int.cast_le

theorem inUnit_iff (a : Dec) : a.inUnit ↔ 0 < a.i ∧ a.i ≤ 10 ^ Precision := by
  unfold Dec.inUnit
  rw [toRat_pos_iff, toRat_le_one_iff]

theorem validateAmount_eq (a : Dec) :
    validateAmount a =
      if 0 < a.i ∧ a.i ≤ 10 ^ Precision then .ok ()
      else .error (.Errorf "invalid amount for allocation: %s" (.dec a)) := by
  unfold validateAmount Dec.GT Dec.LTE OneDec ZeroDec
  by_cases h1 : a.i > 10 ^ Precision
  · have : ¬ (0 < a.i ∧ a.i ≤ 10 ^ Precision) := fun h => absurd h.2 (not_le.mpr h1)
    simp [h1, this]
  · by_cases h2 : a.i ≤ 0
    · have : ¬ (0 < a.i ∧ a.i ≤ 10 ^ Precision) := fun h => absurd h.1 (not_lt.mpr h2)
      simp [h2, this]
    · have : 0 < a.i ∧ a.i ≤ 10 ^ Precision := ⟨not_le.mp h2, not_lt.mp h1⟩
      simp [h1, h2, this]

theorem validateAmount_ok_iff (a : Dec) : validateAmount a = .ok () ↔ a.inUnit := by
  rw [validateAmount_eq, inUnit_iff]
  by_cases h : 0 < a.i ∧ a.i ≤ 10 ^ Precision <;> simp [h]

theorem validateAmount_error_of_not (a : Dec) (h : ¬ a.inUnit) :
    validateAmount a = .error (.Errorf "invalid amount for allocation: %s" (.dec a)) := by
  rw [validateAmount_eq]
  rw [inUnit_iff] at h
  simp [h]

theorem validateAllocations_ok_iff (V : Validators) (l : List DecCoin) :
    validateAllocations V l = .ok () ↔
      ∀ al ∈ l, V.ValidateDenom al.Denom = .ok () ∧ al.Amount.inUnit := by
  induction l with
  | nil => simp [validateAllocations]
  | cons al rest ih =>
    unfold validateAllocations
    cases hd : V.ValidateDenom al.Denom with
    | error e => simp [hd]
    | ok u =>
      cases ha : validateAmount al.Amount with
      | error e =>
        have : ¬ al.Amount.inUnit := fun h => by
          rw [(validateAmount_ok_iff _).mpr h] at ha; cases ha
        simp [this]
      | ok u2 =>
        have hd2 : V.ValidateDenom al.Denom = .ok () := hd
        have : al.Amount.inUnit := (validateAmount_ok_iff _).mp ha
        simp [this, ih, hd2]

theorem validateEpochs_eq (epochs : Nat) :
    validateEpochs epochs =
      if 0 < epochs then .ok ()
      else .error (.Errorf "invalid epochs. %s epochs cannot be 0 or negative" (.uint32 0)) := by
  unfold validateEpochs
  cases epochs with
  | zero => simp
  | succ n => simp

theorem validateBasic_ok_iff_checks (V : Validators) (rip : RegisterIncentiveProposal) :
    rip.ValidateBasic V = .ok () ↔
      V.ValidateAddress rip.Contract = .ok () ∧
      (∀ al ∈ rip.Allocations, V.ValidateDenom al.Denom = .ok () ∧ al.Amount.inUnit) ∧
      0 < rip.Epochs ∧
      V.ValidateAbstract rip.Title rip.Description = .ok () := by
  rw [← validateAllocations_ok_iff]
  unfold RegisterIncentiveProposal.ValidateBasic
  cases V.ValidateAddress rip.Contract with
  | error e => simp
  | ok u =>
    cases validateAllocations V rip.Allocations with
    | error e => simp
    | ok u2 =>
      rw [validateEpochs_eq]
      by_cases h : 0 < rip.Epochs <;> simp [h]

theorem not_inUnit_iff (a : Dec) : ¬ a.inUnit ↔ a.toRat ≤ 0 ∨ 1 < a.toRat := by
  unfold Dec.inUnit
  constructor
  · intro h
    by_cases h0 : 0 < a.toRat
    · exact Or.inr (not_le.mp (fun h1 => h ⟨h0, h1⟩))
    · exact Or.inl (not_lt.mp h0)
  · rintro (h | h) ⟨h0, h1⟩
    · exact absurd h0 (not_lt.mpr h)
    · exact absurd h1 (not_le.mpr h)

theorem toRat_nonpos_iff (a : Dec) : a.toRat ≤ 0 ↔ a.i ≤ 0 := by
  rw [← not_lt, toRat_pos_iff, not_lt]

theorem one_lt_toRat_iff (a : Dec) : 1 < a.toRat ↔ 10 ^ Precision < a.i := by
  rw [← not_le, toRat_le_one_iff, not_le]

/-- With every denom accepted, the loop stops at the first amount outside `(0, 1]`
and returns the error built from that amount. -/
theorem validateAllocations_first_bad (V : Validators) (l : List DecCoin)
    (hD : ∀ al ∈ l, V.ValidateDenom al.Denom = .ok ())
    (hbad : ∃ al ∈ l, ¬ al.Amount.inUnit) :
    ∃ pre al post, l = pre ++ al :: post ∧ (∀ x ∈ pre, x.Amount.inUnit) ∧
      ¬ al.Amount.inUnit ∧
      validateAllocations V l =
        .error (.Errorf "invalid amount for allocation: %s" (.dec al.Amount)) := by
  induction l with
  | nil =>
    obtain ⟨al, h, _⟩ := hbad
    cases h
  | cons a rest ih =>
    have hda : V.ValidateDenom a.Denom = .ok () := hD a (List.mem_cons_self _ _)
    by_cases ha : a.Amount.inUnit
    · have hrest : ∃ al ∈ rest, ¬ al.Amount.inUnit := by
        obtain ⟨al, h, hb⟩ := hbad
        rcases List.mem_cons.mp h with rfl | h
        · exact absurd ha hb
        · exact ⟨al, h, hb⟩
      obtain ⟨pre, al, post, hl, hpre, hal, hv⟩ :=
        ih (fun x hx => hD x (List.mem_cons_of_mem _ hx)) hrest
      refine ⟨a :: pre, al, post, by rw [hl]; rfl, ?_, hal, ?_⟩
      · intro x hx
        rcases List.mem_cons.mp hx with rfl | hx
        · exact ha
        · exact hpre x hx
      · unfold validateAllocations
        rw [hda, (validateAmount_ok_iff _).mpr ha]
        exact hv
    · refine ⟨[], a, rest, rfl, by simp, ha, ?_⟩
      unfold validateAllocations
      rw [hda, validateAmount_error_of_not _ ha]

/-- The sample allocations `uatom 0.5, uosmo 0.3` pass both checks of the loop. -/
theorem sampleAllocations_valid :
    ∀ al ∈ sampleAllocations,
      sampleValidators.ValidateDenom al.Denom = .ok () ∧
        0 < al.Amount.toRat ∧ al.Amount.toRat ≤ 1 := by
  intro al h
  rw [toRat_pos_iff, toRat_le_one_iff]
  revert al
  decide

theorem sampleAllocations_fractions :
    ∀ al ∈ sampleAllocations, 0 < al.Amount.toRat ∧ al.Amount.toRat ≤ 1 :=
  fun al h => (sampleAllocations_valid al h).2

/-- The fraction `1.5` is greater than one. -/
theorem over_fraction : 1 < (Dec.mk (15 * 10 ^ 17)).toRat := by
  rw [one_lt_toRat_iff]
  decide

/-! ## The claims -/

/-- C1: `RegisterIncentiveProposal.ValidateBasic` returns no error if and only if the
address validator accepts the contract, every allocation has a denom accepted by the
denom validator and an amount `a` with `0 < a ≤ 1`, the epochs are positive, and the
abstract content validator accepts the proposal. -/
theorem register_validateBasic_ok_iff (V : Validators) (rip : RegisterIncentiveProposal) :
    rip.ValidateBasic V = .ok () ↔
      V.ValidateAddress rip.Contract = .ok () ∧
      (∀ al ∈ rip.Allocations,
        V.ValidateDenom al.Denom = .ok () ∧ 0 < al.Amount.toRat ∧ al.Amount.toRat ≤ 1) ∧
      0 < rip.Epochs ∧
      V.ValidateAbstract rip.Title rip.Description = .ok () :=
  validateBasic_ok_iff_checks V rip

/-- C2, as stated, fails: a register proposal with 10 epochs, allocation fractions 0.5
and 0.3 and a well-formed contract address is rejected when its title is blank, and
one with fraction 0.5 is rejected when the denom of the allocation is empty. -/
theorem register_valid_fractions_rejected :
    (0 < blankTitleRegister.Epochs ∧
      (∀ al ∈ blankTitleRegister.Allocations, 0 < al.Amount.toRat ∧ al.Amount.toRat ≤ 1) ∧
      sampleValidators.ValidateAddress blankTitleRegister.Contract = .ok () ∧
      blankTitleRegister.ValidateBasic sampleValidators =
        .error (.external "proposal title cannot be blank")) ∧
    (0 < emptyDenomRegister.Epochs ∧
      (∀ al ∈ emptyDenomRegister.Allocations, 0 < al.Amount.toRat ∧ al.Amount.toRat ≤ 1) ∧
      sampleValidators.ValidateAddress emptyDenomRegister.Contract = .ok () ∧
      emptyDenomRegister.ValidateBasic sampleValidators =
        .error (.external "invalid denom")) := by
  refine ⟨⟨by decide, sampleAllocations_fractions, by decide, by decide⟩,
    ⟨by decide, ?_, by decide, by decide⟩⟩
  intro al h
  rw [toRat_pos_iff, toRat_le_one_iff]
  revert al
  decide

/-- C2 (amended): for every register proposal with positive epochs, every allocation
with a denom accepted by the denom validator and a fraction in `(0, 1]`, a contract
address accepted by the address validator, and a title and description accepted by
the abstract content validator, `ValidateBasic` succeeds. -/
theorem register_validateBasic_succeeds (V : Validators) (rip : RegisterIncentiveProposal)
    (hE : 0 < rip.Epochs)
    (hA : ∀ al ∈ rip.Allocations,
      V.ValidateDenom al.Denom = .ok () ∧ 0 < al.Amount.toRat ∧ al.Amount.toRat ≤ 1)
    (hC : V.ValidateAddress rip.Contract = .ok ())
    (hT : V.ValidateAbstract rip.Title rip.Description = .ok ()) :
    rip.ValidateBasic V = .ok () :=
  (validateBasic_ok_iff_checks V rip).mpr ⟨hC, hA, hE, hT⟩

/-- C2 (amended), at allocations `uatom 0.5, uosmo 0.3`, 10 epochs and a well-formed
contract address. -/
theorem register_validateBasic_succeeds_witness :
    0 < sampleRegister.Epochs ∧
    (∀ al ∈ sampleRegister.Allocations,
      sampleValidators.ValidateDenom al.Denom = .ok () ∧
        0 < al.Amount.toRat ∧ al.Amount.toRat ≤ 1) ∧
    sampleValidators.ValidateAddress sampleRegister.Contract = .ok () ∧
    sampleValidators.ValidateAbstract sampleRegister.Title sampleRegister.Description
      = .ok () ∧
    sampleRegister.ValidateBasic sampleValidators = .ok () :=
  ⟨by decide, sampleAllocations_valid, by decide, by decide,
    register_validateBasic_succeeds sampleValidators sampleRegister (by decide)
      sampleAllocations_valid (by decide) (by decide)⟩

/-- C4, as stated, fails: a register proposal with no epochs and valid allocations
returns the address error when its contract address is malformed, and one with a
well-formed address returns the invalid-amount error when it holds the allocation
`uatom 1.5`; neither is the invalid-epochs error. -/
theorem register_zero_epochs_other_error :
    (badAddressZeroEpochsRegister.Epochs = 0 ∧
      (∀ al ∈ badAddressZeroEpochsRegister.Allocations,
        sampleValidators.ValidateDenom al.Denom = .ok () ∧
          0 < al.Amount.toRat ∧ al.Amount.toRat ≤ 1) ∧
      badAddressZeroEpochsRegister.ValidateBasic sampleValidators
        = .error (.external "invalid address") ∧
      badAddressZeroEpochsRegister.ValidateBasic sampleValidators
        ≠ .error (.Errorf "invalid epochs. %s epochs cannot be 0 or negative" (.uint32 0))) ∧
    (overZeroEpochsRegister.Epochs = 0 ∧
      overZeroEpochsRegister.ValidateBasic sampleValidators
        = .error (.Errorf "invalid amount for allocation: %s" (.dec ⟨15 * 10 ^ 17⟩)) ∧
      overZeroEpochsRegister.ValidateBasic sampleValidators
        ≠ .error (.Errorf "invalid epochs. %s epochs cannot be 0 or negative" (.uint32 0))) :=
  ⟨⟨rfl, sampleAllocations_valid, by decide, by decide⟩, ⟨rfl, by decide, by decide⟩⟩

/-- C4 (amended): every register proposal with `epochs = 0` fails `ValidateBasic`, and
when its contract address is accepted by the address validator and all its allocations
are valid, the error is the invalid-epochs error, whatever the title and the
description are. -/
theorem register_zero_epochs_error (V : Validators) (rip : RegisterIncentiveProposal)
    (hE : rip.Epochs = 0) :
    (∃ e, rip.ValidateBasic V = .error e) ∧
    (V.ValidateAddress rip.Contract = .ok () →
      (∀ al ∈ rip.Allocations,
        V.ValidateDenom al.Denom = .ok () ∧ 0 < al.Amount.toRat ∧ al.Amount.toRat ≤ 1) →
      rip.ValidateBasic V =
        .error (.Errorf "invalid epochs. %s epochs cannot be 0 or negative" (.uint32 0))) := by
  constructor
  · cases h : rip.ValidateBasic V with
    | error e => exact ⟨e, rfl⟩
    | ok u =>
      have h3 := ((validateBasic_ok_iff_checks V rip).mp h).2.2.1
      rw [hE] at h3
      exact absurd h3 (Nat.lt_irrefl 0)
  · intro hC hA
    unfold RegisterIncentiveProposal.ValidateBasic
    rw [hC, (validateAllocations_ok_iff V rip.Allocations).mpr hA, validateEpochs_eq, hE]
    rfl

/-- C4 (amended), at valid allocations, a well-formed address and no epochs. -/
theorem register_zero_epochs_error_witness :
    zeroEpochsRegister.Epochs = 0 ∧
    zeroEpochsRegister.ValidateBasic sampleValidators =
      .error (.Errorf "invalid epochs. %s epochs cannot be 0 or negative" (.uint32 0)) :=
  ⟨rfl, (register_zero_epochs_error sampleValidators zeroEpochsRegister rfl).2
    (by decide) sampleAllocations_valid⟩

/-- C5: when the address validator rejects the contract address of a register
proposal, `ValidateBasic` returns exactly the error of the address validator, whatever
the allocations, epochs, title and description are. -/
theorem register_address_error_first (V : Validators) (rip : RegisterIncentiveProposal)
    (e : Error) (hC : V.ValidateAddress rip.Contract = .error e) :
    rip.ValidateBasic V = .error e := by
  unfold RegisterIncentiveProposal.ValidateBasic
  rw [hC]

/-- C5, at the malformed contract address `xyz`. -/
theorem register_address_error_first_witness :
    sampleValidators.ValidateAddress badAddressOverRegister.Contract
      = .error (.external "invalid address") ∧
    badAddressOverRegister.ValidateBasic sampleValidators
      = .error (.external "invalid address") :=
  ⟨by decide,
    register_address_error_first sampleValidators badAddressOverRegister _ (by decide)⟩

/-- C6: `CancelIncentiveProposal.ValidateBasic` returns the error of the address
validator when the contract address is rejected, otherwise exactly the result of the
abstract content validator; so it succeeds whenever both accept, and the denom
validator plays no part. -/
theorem cancel_validateBasic_spec (V : Validators) (rip : CancelIncentiveProposal) :
    (∀ e, V.ValidateAddress rip.Contract = .error e → rip.ValidateBasic V = .error e) ∧
    (V.ValidateAddress rip.Contract = .ok () →
      rip.ValidateBasic V = V.ValidateAbstract rip.Title rip.Description) ∧
    (V.ValidateAddress rip.Contract = .ok () →
      V.ValidateAbstract rip.Title rip.Description = .ok () →
      rip.ValidateBasic V = .ok ()) ∧
    (∀ d : String → Except Error Unit,
      rip.ValidateBasic { V with ValidateDenom := d } = rip.ValidateBasic V) := by
  refine ⟨?_, ?_, ?_, ?_⟩
  · intro e h
    unfold CancelIncentiveProposal.ValidateBasic
    rw [h]
  · intro h
    unfold CancelIncentiveProposal.ValidateBasic
    rw [h]
  · intro h h2
    unfold CancelIncentiveProposal.ValidateBasic
    rw [h, h2]
  · intro d
    rfl

/-- C6, at a cancel proposal with a well-formed address and at one with the
malformed address `xyz`. -/
theorem cancel_validateBasic_spec_witness :
    sampleCancel.ValidateBasic sampleValidators = .ok () ∧
    badAddressCancel.ValidateBasic sampleValidators = .error (.external "invalid address") :=
  ⟨(cancel_validateBasic_spec sampleValidators sampleCancel).2.2.1 (by decide) (by decide),
    (cancel_validateBasic_spec sampleValidators badAddressCancel).1 _ (by decide)⟩

/-- C7, on the code: for every cancel proposal `ProposalType` returns the tag of the
register proposal, `"RegisterIncentive"`, which is not the tag `"CancelIncentive"`
declared for cancel proposals. -/
theorem cancel_proposalType_is_register_tag (rip : CancelIncentiveProposal) :
    rip.ProposalType = "RegisterIncentive" ∧
    rip.ProposalType ≠ ProposalTypeCancelIncentive ∧
    ProposalTypeCancelIncentive = "CancelIncentive" :=
  ⟨rfl, show ProposalTypeRegisterIncentive ≠ ProposalTypeCancelIncentive by decide, rfl⟩

/-- C8: for every register proposal, whatever its fields, `ProposalType` returns the
string `"RegisterIncentive"`. -/
theorem register_proposalType (rip : RegisterIncentiveProposal) :
    rip.ProposalType = "RegisterIncentive" :=
  rfl

/-- C9: `ProposalRoute` returns the router key for every register proposal and every
cancel proposal, so any two proposals of either kind have the same route, whatever
their fields are. -/
theorem proposalRoute_constant (RouterKey : String) (r r' : RegisterIncentiveProposal)
    (c c' : CancelIncentiveProposal) :
    r.ProposalRoute RouterKey = RouterKey ∧
    c.ProposalRoute RouterKey = RouterKey ∧
    r.ProposalRoute RouterKey = r'.ProposalRoute RouterKey ∧
    c.ProposalRoute RouterKey = c'.ProposalRoute RouterKey ∧
    r.ProposalRoute RouterKey = c.ProposalRoute RouterKey :=
  ⟨rfl, rfl, rfl, rfl, rfl⟩

/-- C10: `validateAmount` accepts a fraction `a` if and only if `0 < a ≤ 1`, and
rejects every other one with the invalid-amount error built from it: exactly one is
accepted, exactly zero is rejected, every negative fraction and every fraction greater
than one is rejected, among them one plus the smallest decimal step `10^-18`. -/
theorem validateAmount_accepts_iff :
    (∀ a : Dec, validateAmount a = .ok () ↔ 0 < a.toRat ∧ a.toRat ≤ 1) ∧
    (∀ a : Dec, a.toRat ≤ 0 ∨ 1 < a.toRat →
      validateAmount a = .error (.Errorf "invalid amount for allocation: %s" (.dec a))) ∧
    (OneDec.toRat = 1 ∧ validateAmount OneDec = .ok ()) ∧
    (ZeroDec.toRat = 0 ∧
      validateAmount ZeroDec =
        .error (.Errorf "invalid amount for allocation: %s" (.dec ZeroDec))) ∧
    ((Dec.mk (10 ^ Precision + 1)).toRat = 1 + 1 / (10 : ℚ) ^ Precision ∧
      validateAmount ⟨10 ^ Precision + 1⟩ =
        .error (.Errorf "invalid amount for allocation: %s" (.dec ⟨10 ^ Precision + 1⟩))) := by
  refine ⟨validateAmount_ok_iff, ?_, ⟨?_, by decide⟩, ⟨?_, by decide⟩, ⟨?_, by decide⟩⟩
  · intro a h
    exact validateAmount_error_of_not a ((not_inUnit_iff a).mpr h)
  · unfold Dec.toRat OneDec
    push_cast
    exact div_self (ne_of_gt pow_precision_pos)
  · unfold Dec.toRat ZeroDec
    simp
  · unfold Dec.toRat
    push_cast
    rw [add_div, div_self (ne_of_gt pow_precision_pos)]

/-- C10, at the negative fraction `-0.5` and at the fraction `1.5`. -/
theorem validateAmount_accepts_iff_witness :
    validateAmount ⟨-5 * 10 ^ 17⟩ =
      .error (.Errorf "invalid amount for allocation: %s" (.dec ⟨-5 * 10 ^ 17⟩)) ∧
    validateAmount ⟨15 * 10 ^ 17⟩ =
      .error (.Errorf "invalid amount for allocation: %s" (.dec ⟨15 * 10 ^ 17⟩)) :=
  ⟨validateAmount_accepts_iff.2.1 ⟨-5 * 10 ^ 17⟩
      (Or.inl ((toRat_nonpos_iff _).mpr (by decide))),
    validateAmount_accepts_iff.2.1 ⟨15 * 10 ^ 17⟩ (Or.inr over_fraction)⟩

/-! ## The loop over the allocations, entry by entry -/

/-- The loop accepts a concatenation exactly when it accepts both parts. -/
theorem validateAllocations_append_ok_iff (V : Validators) (xs ys : List DecCoin) :
    validateAllocations V (xs ++ ys) = .ok () ↔
      validateAllocations V xs = .ok () ∧ validateAllocations V ys = .ok () := by
  rw [validateAllocations_ok_iff, validateAllocations_ok_iff, validateAllocations_ok_iff]
  constructor
  · intro h
    exact ⟨fun al hal => h al (List.mem_append.mpr (Or.inl hal)),
      fun al hal => h al (List.mem_append.mpr (Or.inr hal))⟩
  · rintro ⟨hx, hy⟩ al hal
    rcases List.mem_append.mp hal with h | h
    · exact hx al h
    · exact hy al h

/-- The loop accepts a one-entry list exactly when the entry passes both checks. -/
theorem validateAllocations_single_ok_iff (V : Validators) (al : DecCoin) :
    validateAllocations V [al] = .ok () ↔
      V.ValidateDenom al.Denom = .ok () ∧ al.Amount.inUnit := by
  rw [validateAllocations_ok_iff]
  constructor
  · intro h
    exact h al (List.mem_singleton.mpr rfl)
  · intro h x hx
    rw [List.mem_singleton.mp hx]
    exact h

/-- The loop skips the entries before index `i` when all of them pass both checks. -/
theorem validateAllocations_skip_valid (V : Validators) :
    ∀ (l : List DecCoin) (i : Nat) (al : DecCoin), l[i]? = some al →
      (∀ j, j < i → ∀ x, l[j]? = some x →
        V.ValidateDenom x.Denom = .ok () ∧ x.Amount.inUnit) →
      validateAllocations V l = validateAllocations V (al :: l.drop (i + 1)) := by
  intro l
  induction l with
  | nil =>
    intro i al hi
    simp at hi
  | cons a rest ih =>
    intro i al hi hpre
    cases i with
    | zero =>
      have ha : a = al := by simpa using hi
      rw [ha]
      rfl
    | succ n =>
      have hva := hpre 0 (Nat.succ_pos n) a (by simp)
      have hn : rest[n]? = some al := by simpa using hi
      have hrest : ∀ j, j < n → ∀ x, rest[j]? = some x →
          V.ValidateDenom x.Denom = .ok () ∧ x.Amount.inUnit := by
        intro j hj x hx
        exact hpre (j + 1) (Nat.succ_lt_succ hj) x (by simpa using hx)
      have step : validateAllocations V (a :: rest) = validateAllocations V rest := by
        rw [validateAllocations, hva.1, (validateAmount_ok_iff _).mpr hva.2]
      rw [step, ih n al hn hrest]
      rfl

/-- C11: no invariant is enforced across allocations: `validateAllocations` succeeds
on `xs ++ ys` if and only if it succeeds on `xs` and on `ys`; it succeeds on a list
if and only if it succeeds on each entry alone; acceptance is the same for any
reordering of the list; and the list `uatom 0.6, uatom 0.7`, with a repeated denom and
fractions that sum to more than one, is accepted. -/
theorem validateAllocations_no_cross_invariant :
    (∀ (V : Validators) (xs ys : List DecCoin),
      validateAllocations V (xs ++ ys) = .ok () ↔
        validateAllocations V xs = .ok () ∧ validateAllocations V ys = .ok ()) ∧
    (∀ (V : Validators) (l : List DecCoin),
      validateAllocations V l = .ok () ↔ ∀ al ∈ l, validateAllocations V [al] = .ok ()) ∧
    (∀ (V : Validators) (xs ys : List DecCoin), xs.Perm ys →
      (validateAllocations V xs = .ok () ↔ validateAllocations V ys = .ok ())) ∧
    (¬ (repeatedAllocations.map DecCoin.Denom).Nodup ∧
      1 < (repeatedAllocations.map (fun al => al.Amount.toRat)).sum ∧
      validateAllocations sampleValidators repeatedAllocations = .ok ()) := by
  refine ⟨validateAllocations_append_ok_iff, ?_, ?_, ⟨by decide, ?_, by decide⟩⟩
  · intro V l
    rw [validateAllocations_ok_iff]
    constructor
    · intro h al hal
      exact (validateAllocations_single_ok_iff V al).mpr (h al hal)
    · intro h al hal
      exact (validateAllocations_single_ok_iff V al).mp (h al hal)
  · intro V xs ys hp
    rw [validateAllocations_ok_iff, validateAllocations_ok_iff]
    constructor
    · intro h al hal
      exact h al (hp.mem_iff.mpr hal)
    · intro h al hal
      exact h al (hp.mem_iff.mp hal)
  · simp only [repeatedAllocations, List.map, List.sum_cons, List.sum_nil, Dec.toRat,
      Precision]
    norm_num

/-- C11, at the sample allocations `uatom 0.5, uosmo 0.3` in reverse order. -/
theorem validateAllocations_no_cross_invariant_witness :
    sampleAllocations.reverse.Perm sampleAllocations ∧
    validateAllocations sampleValidators sampleAllocations = .ok () ∧
    validateAllocations sampleValidators sampleAllocations.reverse = .ok () :=
  ⟨List.reverse_perm _, by decide,
    (validateAllocations_no_cross_invariant.2.2.1 sampleValidators
      sampleAllocations.reverse sampleAllocations (List.reverse_perm _)).mpr (by decide)⟩

/-- C12: `RegisterIncentiveProposal.ValidateBasic` fails fast in the order address,
allocations, epochs, abstract content: it returns the error `e` exactly when `e` is
the error of the first failing check in that order, an error of the abstract content
validator being returned verbatim only when the first three checks pass. -/
theorem register_validateBasic_first_failure (V : Validators)
    (rip : RegisterIncentiveProposal) (e : Error) :
    rip.ValidateBasic V = .error e ↔
      V.ValidateAddress rip.Contract = .error e ∨
      (V.ValidateAddress rip.Contract = .ok () ∧
        validateAllocations V rip.Allocations = .error e) ∨
      (V.ValidateAddress rip.Contract = .ok () ∧
        validateAllocations V rip.Allocations = .ok () ∧
        validateEpochs rip.Epochs = .error e) ∨
      (V.ValidateAddress rip.Contract = .ok () ∧
        validateAllocations V rip.Allocations = .ok () ∧
        validateEpochs rip.Epochs = .ok () ∧
        V.ValidateAbstract rip.Title rip.Description = .error e) := by
  unfold RegisterIncentiveProposal.ValidateBasic
  cases V.ValidateAddress rip.Contract with
  | error e1 => simp
  | ok u1 =>
    cases validateAllocations V rip.Allocations with
    | error e2 => simp
    | ok u2 =>
      cases validateEpochs rip.Epochs with
      | error e3 => simp
      | ok u3 => simp

/-- C12, at a well-formed address with the allocation `uatom 1.5` and no epochs: the
error is the one of the allocation, not the one of the epochs. -/
theorem register_validateBasic_first_failure_witness :
    validateEpochs overZeroEpochsRegister.Epochs =
      .error (.Errorf "invalid epochs. %s epochs cannot be 0 or negative" (.uint32 0)) ∧
    overZeroEpochsRegister.ValidateBasic sampleValidators =
      .error (.Errorf "invalid amount for allocation: %s" (.dec ⟨15 * 10 ^ 17⟩)) :=
  ⟨by decide,
    (register_validateBasic_first_failure sampleValidators overZeroEpochsRegister _).mpr
      (Or.inr (Or.inl ⟨by decide, by decide⟩))⟩

/-- C13: `validateAllocations` reports the first offending allocation: when the
allocation at index `i` has a denom rejected by the denom validator or a fraction
outside `(0, 1]`, and every allocation before it passes both checks, the result is the
denom error of that allocation when its denom is rejected, whatever its fraction is,
and otherwise the invalid-amount error built from its fraction. -/
theorem validateAllocations_first_offender (V : Validators) (l : List DecCoin) (i : Nat)
    (al : DecCoin) (hi : l[i]? = some al)
    (hpre : ∀ j, j < i → ∀ x, l[j]? = some x →
      V.ValidateDenom x.Denom = .ok () ∧ 0 < x.Amount.toRat ∧ x.Amount.toRat ≤ 1)
    (hoff : (∃ e, V.ValidateDenom al.Denom = .error e) ∨
      al.Amount.toRat ≤ 0 ∨ 1 < al.Amount.toRat) :
    (∀ e, V.ValidateDenom al.Denom = .error e → validateAllocations V l = .error e) ∧
    (V.ValidateDenom al.Denom = .ok () →
      validateAllocations V l =
        .error (.Errorf "invalid amount for allocation: %s" (.dec al.Amount))) := by
  rw [validateAllocations_skip_valid V l i al hi hpre]
  constructor
  · intro e he
    rw [validateAllocations, he]
  · intro hd
    have hbad : ¬ al.Amount.inUnit := by
      rcases hoff with ⟨e, he⟩ | h
      · rw [hd] at he
        cases he
      · exact (not_inUnit_iff _).mpr h
    rw [validateAllocations, hd, validateAmount_error_of_not _ hbad]

/-- C13, at index 1 of two lists: in `uatom 0.5, 1.5 of empty denom, uosmo 2` the denom
error of index 1 is returned, and in `uatom 0.5, uosmo 1.5, 2 of empty denom` the
invalid-amount error of index 1. -/
theorem validateAllocations_first_offender_witness :
    validateAllocations sampleValidators mixedAllocations
      = .error (.external "invalid denom") ∧
    validateAllocations sampleValidators lateOverAllocations
      = .error (.Errorf "invalid amount for allocation: %s" (.dec ⟨15 * 10 ^ 17⟩)) :=
  ⟨(validateAllocations_first_offender sampleValidators mixedAllocations 1
      ⟨"", ⟨15 * 10 ^ 17⟩⟩ rfl
      (fun j hj x hx => by
        have hj0 : j = 0 := by omega
        subst hj0
        have hx0 : x = ⟨"uatom", ⟨5 * 10 ^ 17⟩⟩ := by
          simpa [mixedAllocations] using hx.symm
        subst hx0
        exact sampleAllocations_valid _ (by decide))
      (Or.inl ⟨.external "invalid denom", by decide⟩)).1 (.external "invalid denom")
      (by decide),
    (validateAllocations_first_offender sampleValidators lateOverAllocations 1
      ⟨"uosmo", ⟨15 * 10 ^ 17⟩⟩ rfl
      (fun j hj x hx => by
        have hj0 : j = 0 := by omega
        subst hj0
        have hx0 : x = ⟨"uatom", ⟨5 * 10 ^ 17⟩⟩ := by
          simpa [lateOverAllocations] using hx.symm
        subst hx0
        exact sampleAllocations_valid _ (by decide))
      (Or.inr (Or.inr over_fraction))).2 (by decide)⟩

/-- C14: for every title, description and contract, the content returned by
`NewCancelIncentiveProposal` is a register proposal with those three fields, no
allocations and `epochs = 0`; `ValidateBasic` never succeeds on it: it returns the
error of the address validator when the contract is rejected and the invalid-epochs
error otherwise. -/
theorem newCancel_validateBasic_fails (V : Validators) (title desciption contract : String) :
    (NewCancelIncentiveProposal title desciption contract =
      { Title := title, Description := desciption, Contract := contract,
        Allocations := [], Epochs := 0 }) ∧
    (NewCancelIncentiveProposal title desciption contract).ValidateBasic V ≠ .ok () ∧
    (∀ e, V.ValidateAddress contract = .error e →
      (NewCancelIncentiveProposal title desciption contract).ValidateBasic V = .error e) ∧
    (V.ValidateAddress contract = .ok () →
      (NewCancelIncentiveProposal title desciption contract).ValidateBasic V =
        .error (.Errorf "invalid epochs. %s epochs cannot be 0 or negative" (.uint32 0))) := by
  have hbad : ∀ e, V.ValidateAddress contract = .error e →
      (NewCancelIncentiveProposal title desciption contract).ValidateBasic V = .error e := by
    intro e he
    unfold RegisterIncentiveProposal.ValidateBasic NewCancelIncentiveProposal
    simp only
    rw [he]
  have hgood : V.ValidateAddress contract = .ok () →
      (NewCancelIncentiveProposal title desciption contract).ValidateBasic V =
        .error (.Errorf "invalid epochs. %s epochs cannot be 0 or negative" (.uint32 0)) := by
    intro hC
    unfold RegisterIncentiveProposal.ValidateBasic NewCancelIncentiveProposal
    simp only
    rw [hC]
    rfl
  refine ⟨rfl, ?_, hbad, hgood⟩
  intro hok
  cases hC : V.ValidateAddress contract with
  | error e =>
    rw [hbad e hC] at hok
    cases hok
  | ok u =>
    rw [hgood hC] at hok
    cases hok

/-- C14, at a well-formed contract address and at the malformed address `xyz`. -/
theorem newCancel_validateBasic_fails_witness :
    (NewCancelIncentiveProposal "title" "description" sampleContract).ValidateBasic
      sampleValidators =
        .error (.Errorf "invalid epochs. %s epochs cannot be 0 or negative" (.uint32 0)) ∧
    (NewCancelIncentiveProposal "title" "description" "xyz").ValidateBasic
      sampleValidators = .error (.external "invalid address") :=
  ⟨(newCancel_validateBasic_fails sampleValidators "title" "description"
      sampleContract).2.2.2 (by decide),
    (newCancel_validateBasic_fails sampleValidators "title" "description" "xyz").2.2.1
      (.external "invalid address") (by decide)⟩

/-- C15: an empty allocation list is accepted: `validateAllocations` succeeds on the
empty list, and a register proposal with no allocations, a contract address accepted
by the address validator, `epochs > 0` and a title and description accepted by the
abstract content validator passes `ValidateBasic`. -/
theorem register_empty_allocations_ok (V : Validators) (rip : RegisterIncentiveProposal)
    (hA : rip.Allocations = [])
    (hC : V.ValidateAddress rip.Contract = .ok ())
    (hE : 0 < rip.Epochs)
    (hT : V.ValidateAbstract rip.Title rip.Description = .ok ()) :
    validateAllocations V [] = .ok () ∧ rip.ValidateBasic V = .ok () := by
  refine ⟨rfl, (validateBasic_ok_iff_checks V rip).mpr ⟨hC, ?_, hE, hT⟩⟩
  rw [hA]
  intro al hal
  cases hal

/-- C15, at a register proposal with no allocations, a well-formed address and 10
epochs. -/
theorem register_empty_allocations_ok_witness :
    emptyAllocationsRegister.Allocations = [] ∧
    validateAllocations sampleValidators [] = .ok () ∧
    emptyAllocationsRegister.ValidateBasic sampleValidators = .ok () :=
  ⟨rfl, register_empty_allocations_ok sampleValidators emptyAllocationsRegister rfl
    (by decide) (by decide) (by decide)⟩

/-- C16: register validation is at least as strict as cancel validation: whenever the
register proposal with given title, description, contract, allocations and epochs
passes `ValidateBasic`, so does the cancel proposal with the same title, description
and contract; the converse fails, since with `epochs = 0` the register proposal is
rejected although the cancel proposal with the same three fields passes. -/
theorem register_stricter_than_cancel :
    (∀ (V : Validators) (title desciption contract : String)
      (allocations : List DecCoin) (epochs : Nat),
      (NewRegisterIncentiveProposal title desciption contract allocations
        epochs).ValidateBasic V = .ok () →
      CancelIncentiveProposal.ValidateBasic V
        { Title := title, Description := desciption, Contract := contract } = .ok ()) ∧
    (zeroEpochsRegister =
        NewRegisterIncentiveProposal sampleCancel.Title sampleCancel.Description
          sampleCancel.Contract sampleAllocations 0 ∧
      sampleCancel.ValidateBasic sampleValidators = .ok () ∧
      zeroEpochsRegister.ValidateBasic sampleValidators =
        .error (.Errorf "invalid epochs. %s epochs cannot be 0 or negative" (.uint32 0))) := by
  refine ⟨?_, ⟨rfl, by decide, by decide⟩⟩
  intro V title desciption contract allocations epochs h
  have hc := (validateBasic_ok_iff_checks V _).mp h
  have hC : V.ValidateAddress contract = .ok () := hc.1
  have hT : V.ValidateAbstract title desciption = .ok () := hc.2.2.2
  unfold CancelIncentiveProposal.ValidateBasic
  simp only
  rw [hC, hT]

/-- C16, at the sample register proposal: it passes, and so does the cancel proposal
with the same title, description and contract. -/
theorem register_stricter_than_cancel_witness :
    sampleRegister.ValidateBasic sampleValidators = .ok () ∧
    sampleCancel.ValidateBasic sampleValidators = .ok () :=
  ⟨by decide,
    register_stricter_than_cancel.1 sampleValidators "title" "description" sampleContract
      sampleAllocations 10 (by decide)⟩

end Incentives
